import Mathlib

/-!
Verification of the market-data / trend-analysis / trading-strategy core.

The TypeScript sources are embedded shallowly:
* JavaScript numbers are modelled as `JsVal`: a finite rational, `NaN`, or a
  signed infinity.  Arithmetic mirrors IEEE-754 double behaviour at the level
  of these cases (rounding of finite values is idealised to exact rationals;
  the code never relies on rounding of finite intermediates in the proved
  properties).  Where a computation can only produce finite values, plain `ℚ`
  is used.
* `Map` objects keyed by token mint are modelled as association lists.
* `async` fetches (price / volume lookups) are modelled as explicit
  parameters: the decision functions receive the fetched values, with the
  code's sentinel conventions (`0` = fetch failed) preserved.
* Log strings (`reason` fields) and wall-clock side effects are omitted;
  `Date.now()` becomes an explicit `now : ℚ` parameter.
-/

namespace Eliza

/-- A JavaScript number: a finite rational, `NaN`, `+Infinity` or `-Infinity`. -/
inductive JsVal where
  | fin (q : ℚ)
  | nan
  | inf
  | ninf
deriving DecidableEq, Repr

namespace JsVal

/-- JS `isNaN`. -/
def isNaN : JsVal → Bool
  | nan => true
  | _ => false

/-- JS unary minus. -/
def neg : JsVal → JsVal
  | fin q => fin (-q)
  | nan => nan
  | inf => ninf
  | ninf => inf

/-- JS addition. -/
def add : JsVal → JsVal → JsVal
  | fin a, fin b => fin (a + b)
  | fin _, inf => inf
  | fin _, ninf => ninf
  | inf, fin _ => inf
  | ninf, fin _ => ninf
  | inf, inf => inf
  | ninf, ninf => ninf
  | inf, ninf => nan
  | ninf, inf => nan
  | nan, _ => nan
  | _, nan => nan

/-- JS subtraction, `a - b = a + (-b)`. -/
def sub (a b : JsVal) : JsVal := add a (neg b)

/-- JS multiplication. -/
def mul : JsVal → JsVal → JsVal
  | fin a, fin b => fin (a * b)
  | fin a, inf => if 0 < a then inf else if a < 0 then ninf else nan
  | fin a, ninf => if 0 < a then ninf else if a < 0 then inf else nan
  | inf, fin b => if 0 < b then inf else if b < 0 then ninf else nan
  | ninf, fin b => if 0 < b then ninf else if b < 0 then inf else nan
  | inf, inf => inf
  | inf, ninf => ninf
  | ninf, inf => ninf
  | ninf, ninf => inf
  | nan, _ => nan
  | _, nan => nan

/-- JS division (the model carries only a positive zero, so `a / 0` follows the
sign of `a`, and `0 / 0 = NaN`). -/
def div : JsVal → JsVal → JsVal
  | fin a, fin b =>
      if b = 0 then (if 0 < a then inf else if a < 0 then ninf else nan)
      else fin (a / b)
  | fin _, inf => fin 0
  | fin _, ninf => fin 0
  | inf, fin b => if 0 ≤ b then inf else ninf
  | ninf, fin b => if 0 ≤ b then ninf else inf
  | inf, inf => nan
  | inf, ninf => nan
  | ninf, inf => nan
  | ninf, ninf => nan
  | nan, _ => nan
  | _, nan => nan

/-- JS `Math.abs`. -/
def abs : JsVal → JsVal
  | fin q => fin |q|
  | nan => nan
  | inf => inf
  | ninf => inf

/-- JS `Math.min` (returns `NaN` if any argument is `NaN`). -/
def min : JsVal → JsVal → JsVal
  | fin a, fin b => fin (Min.min a b)
  | fin a, inf => fin a
  | inf, fin b => fin b
  | fin _, ninf => ninf
  | ninf, fin _ => ninf
  | inf, inf => inf
  | ninf, ninf => ninf
  | inf, ninf => ninf
  | ninf, inf => ninf
  | nan, _ => nan
  | _, nan => nan

/-- JS strict less-than (`false` whenever `NaN` is involved). -/
def lt : JsVal → JsVal → Bool
  | fin a, fin b => a < b
  | fin _, inf => true
  | ninf, fin _ => true
  | ninf, inf => true
  | _, _ => false

/-- JS less-or-equal (`false` whenever `NaN` is involved). -/
def le : JsVal → JsVal → Bool
  | fin a, fin b => a ≤ b
  | fin _, inf => true
  | ninf, fin _ => true
  | ninf, inf => true
  | ninf, ninf => true
  | inf, inf => true
  | _, _ => false

/-- The value is a finite number lying in the closed interval `[lo, hi]`. -/
def within (v : JsVal) (lo hi : ℚ) : Prop :=
  match v with
  | fin q => lo ≤ q ∧ q ≤ hi
  | _ => False

instance : (v : JsVal) → (lo hi : ℚ) → Decidable (v.within lo hi)
  | fin q, lo, hi => inferInstanceAs (Decidable (lo ≤ q ∧ q ≤ hi))
  | nan, _, _ => isFalse (fun h => h)
  | inf, _, _ => isFalse (fun h => h)
  | ninf, _, _ => isFalse (fun h => h)

end JsVal

/-- Rounding to two decimal places, as `Number(x.toFixed(2))` produces on
finite values (the tie-breaking rule is irrelevant to every property proved
here: rounded values are only ever compared with identically rounded values). -/
def round2 (q : ℚ) : ℚ := (round (q * 100) : ℤ) / 100

/-- The effect of `Number(x.toFixed(2))` on a JS number: rounds finite values,
carries `NaN` and the infinities through. -/
def jsRound2 : JsVal → JsVal
  | JsVal.fin q => JsVal.fin (round2 q)
  | v => v

/-! ## Trend analyzer (trend-analyzer.ts)

The analyzer reads a snapshot of an instrument's price history.  A stored
history point carries a timestamp, a price and a 24h volume; per the data
model these stored fields are real numbers, modelled as rationals.  All
derived quantities that pass through a JavaScript division are computed in
`JsVal`, since a zero denominator yields `NaN` or an infinity there. -/

/-- One point of an instrument's price history (market-data-service.ts,
interface PricePoint), as consumed by the trend analyzer. -/
structure PricePoint where
  timestamp : ℚ
  price : ℚ
  volume24h : ℚ
deriving DecidableEq, Repr

/-- trend-analyzer.ts, enum TrendDirection. -/
inductive TrendDirection where
  | BULLISH
  | BEARISH
  | SIDEWAYS
deriving DecidableEq, Repr

/-- trend-analyzer.ts, interface TrendAnalysis.  The source comments annotate
strength and confidence with 0-100%. -/
structure TrendAnalysis where
  direction : TrendDirection
  strength : JsVal
  duration : ℚ
  priceChange : JsVal
  volumeChange : JsVal
  sma20 : ℚ
  sma50 : ℚ
  isReversal : Bool
  confidence : JsVal
deriving DecidableEq, Repr

namespace TrendAnalyzer

/-- Minimum % change to confirm trend (trend-analyzer.ts). -/
def minTrendStrength : ℚ := 5

/-- Percent change to confirm reversal (trend-analyzer.ts). -/
def reversalThreshold : ℚ := 10

/-- Weight of volume in trend strength (trend-analyzer.ts). -/
def volumeWeight : ℚ := 3 / 10

/-- Weight of price in trend strength (trend-analyzer.ts). -/
def priceWeight : ℚ := 7 / 10

/-- calculateSMA: mean of the whole history when it is shorter than the
period, otherwise the mean of the last period prices rounded to 2 decimals
(only that branch applies toFixed in the source). -/
def calculateSMA (history : List PricePoint) (period : ℕ) : ℚ :=
  if history.length < period then
    (history.map (fun p => p.price)).sum / (history.length : ℚ)
  else
    round2 (((history.drop (history.length - period)).map (fun p => p.price)).sum / (period : ℚ))

/-- determineTrendDirection: BULLISH iff the full-window price change exceeds
minTrendStrength and sma20 is above sma50; BEARISH symmetrically; otherwise
SIDEWAYS.  The price change is a JS number (comparisons with NaN are false). -/
def determineTrendDirection (priceChange : JsVal) (sma20 sma50 : ℚ) : TrendDirection :=
  if (JsVal.fin minTrendStrength).lt priceChange ∧ sma50 < sma20 then
    TrendDirection.BULLISH
  else if priceChange.lt (JsVal.fin (-minTrendStrength)) ∧ sma20 < sma50 then
    TrendDirection.BEARISH
  else
    TrendDirection.SIDEWAYS

/-- detectReversal: with at least 3 points, the percent change over the last
3 points contradicting the overall trend beyond reversalThreshold. -/
def detectReversal (history : List PricePoint) (currentTrend : TrendDirection) : Bool :=
  if history.length < 3 then false
  else
    let recentPrices := history.drop (history.length - 3)
    match recentPrices.get? 0, recentPrices.get? 2 with
    | some p0, some p2 =>
      let recentChange := JsVal.mul (JsVal.div (JsVal.fin (p2.price - p0.price)) (JsVal.fin p0.price)) (JsVal.fin 100)
      (currentTrend = TrendDirection.BULLISH ∧ recentChange.lt (JsVal.fin (-reversalThreshold))) ∨
        (currentTrend = TrendDirection.BEARISH ∧ (JsVal.fin reversalThreshold).lt recentChange)
    | _, _ => false

/-- calculateConfidence: weighted blend of price change, volume change,
strength and data-point count. -/
def calculateConfidence (priceChange volumeChange strength : JsVal) (dataPoints : ℕ) : JsVal :=
  let priceConfidence := JsVal.mul (JsVal.min (JsVal.div priceChange.abs (JsVal.fin 20)) (JsVal.fin 1)) (JsVal.fin 100)
  let volumeConfidence := JsVal.mul (JsVal.min (JsVal.div volumeChange.abs (JsVal.fin 20)) (JsVal.fin 1)) (JsVal.fin 100)
  let strengthConfidence := strength
  let dataConfidence := JsVal.mul (JsVal.min (JsVal.fin ((dataPoints : ℚ) / 10)) (JsVal.fin 1)) (JsVal.fin 100)
  JsVal.add
    (JsVal.add
      (JsVal.add (JsVal.mul priceConfidence (JsVal.fin (4 / 10)))
        (JsVal.mul volumeConfidence (JsVal.fin (2 / 10))))
      (JsVal.mul strengthConfidence (JsVal.fin (3 / 10))))
    (JsVal.mul dataConfidence (JsVal.fin (1 / 10)))

/-- analyzeTrend: derives the full TrendAnalysis from a history snapshot, or
nothing when fewer than 2 points are retained. -/
def analyzeTrend (history : List PricePoint) : Option TrendAnalysis :=
  if history.length < 2 then none
  else
    match history.head?, history.getLast? with
    | some oldest, some newest =>
      let sma20 := calculateSMA history 20
      let sma50 := calculateSMA history 50
      let priceChange := JsVal.mul (JsVal.div (JsVal.fin (newest.price - oldest.price)) (JsVal.fin oldest.price)) (JsVal.fin 100)
      let volumeChange := JsVal.mul (JsVal.div (JsVal.fin (newest.volume24h - oldest.volume24h)) (JsVal.fin oldest.volume24h)) (JsVal.fin 100)
      let duration := newest.timestamp - oldest.timestamp
      let direction := determineTrendDirection priceChange sma20 sma50
      let priceStrength := JsVal.min (JsVal.div priceChange.abs (JsVal.fin minTrendStrength)) (JsVal.fin 1)
      let volumeStrength := JsVal.min (JsVal.div volumeChange.abs (JsVal.fin minTrendStrength)) (JsVal.fin 1)
      let strength := JsVal.mul
        (JsVal.add (JsVal.mul priceStrength (JsVal.fin priceWeight))
          (JsVal.mul volumeStrength (JsVal.fin volumeWeight)))
        (JsVal.fin 100)
      let isReversal := detectReversal history direction
      let confidence := calculateConfidence priceChange volumeChange strength history.length
      some {
        direction := direction
        strength := strength
        duration := duration
        priceChange := jsRound2 priceChange
        volumeChange := jsRound2 volumeChange
        sma20 := sma20
        sma50 := sma50
        isReversal := isReversal
        confidence := jsRound2 confidence }
    | _, _ => none

end TrendAnalyzer

/-! ## Strategy engine (trading-strategy.ts)

Positions and capital are plain finite numbers throughout the strategy (they
originate from validated fetches).  The positions `Map` is an association
list; `decide` (analyzeTradeOpportunity) receives the trend analysis and the
fetched volume / price explicitly, with the source's sentinel `0` marking an
exhausted fetch retry loop. -/

/-- trading-strategy.ts, interface Position. -/
structure Position where
  tokenMint : String
  entryPrice : ℚ
  amount : ℚ
  stopLoss : ℚ
  takeProfit : ℚ
  timestamp : ℚ
  initialCapital : ℚ
deriving DecidableEq, Repr

/-- Signal type of trading-strategy.ts, interface TradeSignal. -/
inductive SignalType where
  | ENTRY
  | EXIT
deriving DecidableEq, Repr

/-- trading-strategy.ts, interface TradeSignal (the human-readable reason
string is omitted from the model). -/
structure TradeSignal where
  type : SignalType
  tokenMint : String
  price : ℚ
  confidence : JsVal
deriving DecidableEq, Repr

/-- trading-strategy.ts, interface TradeStats. -/
structure TradeStats where
  totalTrades : ℕ
  winningTrades : ℕ
  totalProfit : ℚ
  currentCapital : ℚ
  maxDrawdown : ℚ
deriving DecidableEq, Repr

/-- Map.get on the positions association list. -/
def posGet : List (String × Position) → String → Option Position
  | [], _ => none
  | (k', p) :: rest, k => if k' = k then some p else posGet rest k

/-- Map.set on the positions association list: replace in place if the key
is present, append otherwise (insertion order, as a JS Map). -/
def posSet : List (String × Position) → String → Position → List (String × Position)
  | [], k, p => [(k, p)]
  | (k', p') :: rest, k, p =>
      if k' = k then (k, p) :: rest else (k', p') :: posSet rest k p

/-- Map.delete on the positions association list. -/
def posDelete (l : List (String × Position)) (k : String) : List (String × Position) :=
  l.filter (fun e => ¬(e.1 = k))

/-- Mutable state of the TradingStrategy singleton. -/
structure StrategyState where
  positions : List (String × Position)
  initialCapital : ℚ
  currentCapital : ℚ
  stats : TradeStats
  consecutiveLosses : ℕ
deriving DecidableEq, Repr

namespace TradingStrategy

/-- Strategy parameter minConfidence (trading-strategy.ts). -/
def minConfidence : ℚ := 50

/-- Strategy parameter minTrendStrength (trading-strategy.ts; distinct from
the analyzer's constant of the same name). -/
def minTrendStrength : ℚ := 3

/-- Strategy parameter stopLossPercent (trading-strategy.ts). -/
def stopLossPercent : ℚ := 1

/-- Strategy parameter takeProfitPercent (trading-strategy.ts). -/
def takeProfitPercent : ℚ := 2

/-- Strategy parameter maxPositions (trading-strategy.ts). -/
def maxPositions : ℕ := 3

/-- Strategy parameter positionSize (trading-strategy.ts). -/
def positionSize : ℚ := 3 / 10

/-- Strategy parameter minVolume (trading-strategy.ts). -/
def minVolume : ℚ := 50000

/-- Strategy parameter consecutiveLossLimit (trading-strategy.ts). -/
def consecutiveLossLimit : ℕ := 5

/-- checkEntryConditions, as a function of the fetched 24h volume and the
fetched current price (0 = the retry loop exhausted without a value). -/
def checkEntryConditions (s : StrategyState) (tokenMint : String)
    (trend : TrendAnalysis) (volume24h : ℚ) (currentPrice : ℚ) : Option TradeSignal :=
  if maxPositions ≤ s.positions.length then none
  else if s.currentCapital < 5 then none
  else if volume24h < minVolume then none
  else if trend.confidence.lt (JsVal.fin minConfidence) ∨ trend.strength.lt (JsVal.fin minTrendStrength) then none
  else if trend.isReversal then none
  else if trend.direction = TrendDirection.BULLISH then
    if currentPrice = 0 then none
    else
      let priceHistory := trend.sma20 - trend.sma50
      if currentPrice * (2 / 100) < |priceHistory| then none
      else some {
        type := SignalType.ENTRY
        tokenMint := tokenMint
        price := currentPrice
        confidence := trend.confidence }
  else none

/-- The dynamic take-profit level of checkExitConditions:
min(takeProfitPercent * (1 + strength / 100), takeProfitPercent * 2),
a JS number since the trend strength may be NaN. -/
def dynamicTakeProfit (strength : JsVal) : JsVal :=
  JsVal.min
    (JsVal.mul (JsVal.fin takeProfitPercent)
      (JsVal.add (JsVal.fin 1) (JsVal.div strength (JsVal.fin 100))))
    (JsVal.fin (takeProfitPercent * 2))

/-- The percent price change of an open position at the fetched price. -/
def exitPriceChange (position : Position) (currentPrice : ℚ) : ℚ :=
  (currentPrice - position.entryPrice) / position.entryPrice * 100

/-- checkExitConditions, as a function of the fetched current price
(0 = the retry loop exhausted without a value). -/
def checkExitConditions (position : Position) (trend : TrendAnalysis)
    (currentPrice : ℚ) : Option TradeSignal :=
  if currentPrice = 0 then none
  else
    let priceChange := exitPriceChange position currentPrice
    if priceChange ≤ -stopLossPercent then
      some { type := SignalType.EXIT, tokenMint := position.tokenMint,
             price := currentPrice, confidence := JsVal.fin 100 }
    else if (dynamicTakeProfit trend.strength).le (JsVal.fin priceChange) then
      some { type := SignalType.EXIT, tokenMint := position.tokenMint,
             price := currentPrice, confidence := JsVal.fin 100 }
    else if (trend.isReversal ∨ trend.direction = TrendDirection.BEARISH) ∧ 0 < priceChange then
      some { type := SignalType.EXIT, tokenMint := position.tokenMint,
             price := currentPrice, confidence := trend.confidence }
    else none

/-- analyzeTradeOpportunity: with an open position, run the exit check; with
no open position, skip entries entirely while the consecutive-loss limit is
reached, otherwise run the entry check.  The trend is the analyzer's output
for the instrument (none when analysis is unavailable). -/
def analyzeTradeOpportunity (s : StrategyState) (tokenMint : String)
    (trend : Option TrendAnalysis) (fetchedVolume : ℚ) (fetchedPrice : ℚ) : Option TradeSignal :=
  match trend with
  | none => none
  | some t =>
    match posGet s.positions tokenMint with
    | some position => checkExitConditions position t fetchedPrice
    | none =>
      if consecutiveLossLimit ≤ s.consecutiveLosses then none
      else checkEntryConditions s tokenMint t fetchedVolume fetchedPrice

/-- The position amount computed by executeEntry:
currentCapital * positionSize * (1 - min(consecutiveLosses * 0.1, 0.5)). -/
def positionAmount (s : StrategyState) : ℚ :=
  s.currentCapital * positionSize * (1 - Min.min ((s.consecutiveLosses : ℚ) * (1 / 10)) (1 / 2))

/-- executeEntry: creates the position, stores it under the signal's token
(replacing any existing entry for that key) and debits the capital.  The
source wraps the body in try/catch but the body cannot throw, so the call
always reports success. -/
def executeEntry (s : StrategyState) (signal : TradeSignal) (now : ℚ) : Bool × StrategyState :=
  let amt := positionAmount s
  let position : Position := {
    tokenMint := signal.tokenMint
    entryPrice := signal.price
    amount := amt / signal.price
    stopLoss := signal.price * (1 - stopLossPercent / 100)
    takeProfit := signal.price * (1 + takeProfitPercent / 100)
    timestamp := now
    initialCapital := amt }
  (true, { s with
    positions := posSet s.positions signal.tokenMint position
    currentCapital := s.currentCapital - amt })

/-- executeExit: settles the named position (failure when none is open),
credits capital, updates the stats and the consecutive-loss counter, and
removes the position. -/
def executeExit (s : StrategyState) (signal : TradeSignal) : Bool × StrategyState :=
  match posGet s.positions signal.tokenMint with
  | none => (false, s)
  | some position =>
    let profit := (signal.price - position.entryPrice) * position.amount
    let newCapital := s.currentCapital + position.initialCapital + profit
    let newStats : TradeStats := {
      totalTrades := s.stats.totalTrades + 1
      winningTrades := if 0 < profit then s.stats.winningTrades + 1 else s.stats.winningTrades
      totalProfit := s.stats.totalProfit + profit
      currentCapital := newCapital
      maxDrawdown := Min.min s.stats.maxDrawdown
        ((newCapital - s.initialCapital) / s.initialCapital * 100) }
    (true, { s with
      currentCapital := newCapital
      stats := newStats
      consecutiveLosses := if 0 < profit then 0 else s.consecutiveLosses + 1
      positions := posDelete s.positions signal.tokenMint })

end TradingStrategy

/-! ## Market data service (market-data-service.ts)

The per-instrument state stores raw JS numbers as they arrive from the feed:
`updatePrice` validates fetched values only with `isNaN`, so negative or
infinite values pass through and are stored.  The fetch result is an explicit
parameter (`none` models a thrown fetch / a null value; either raises the
error counter).  `Date.now()` is the explicit `now` parameter. -/

/-- One stored history point with raw JS-number price and volume
(market-data-service.ts, interface PricePoint, as stored by updatePrice). -/
structure MdPricePoint where
  timestamp : ℚ
  price : JsVal
  volume24h : JsVal
deriving DecidableEq, Repr

/-- market-data-service.ts, interface MarketData. -/
structure MarketData where
  symbol : String
  currentPrice : JsVal
  currentVolume24h : JsVal
  priceHistory : List MdPricePoint
  lastUpdated : ℚ
  updateCount : ℕ
  errors : ℕ
  volumeChange24h : JsVal
deriving DecidableEq, Repr

namespace MarketDataService

/-- updatePrice for a tracked instrument.  A failed or NaN fetch only raises
the error counter; an update arriving before 0.9 of the update interval has
elapsed is dropped silently; otherwise the sample is appended, the history is
trimmed to the last historyLength points, the current price/volume and the
volume change are updated and the error counter is reset. -/
def updatePrice (d : MarketData) (fetched : Option (JsVal × JsVal)) (now : ℚ)
    (historyLength : ℕ) (updateInterval : ℚ) : MarketData :=
  match fetched with
  | none => { d with errors := d.errors + 1 }
  | some (price, volume) =>
    if price.isNaN ∨ volume.isNaN then { d with errors := d.errors + 1 }
    else if now - d.lastUpdated < updateInterval * (9 / 10) then d
    else
      let volumeChange := JsVal.mul (JsVal.div (JsVal.sub volume d.currentVolume24h) d.currentVolume24h) (JsVal.fin 100)
      let history := d.priceHistory ++ [{ timestamp := now, price := price, volume24h := volume }]
      let history := if historyLength < history.length then history.drop (history.length - historyLength) else history
      { d with
        currentPrice := price
        currentVolume24h := volume
        volumeChange24h := jsRound2 volumeChange
        priceHistory := history
        lastUpdated := now
        updateCount := d.updateCount + 1
        errors := 0 }

/-- Insertion of a point into a list sorted by ascending timestamp. -/
def insertByTs (pt : MdPricePoint) : List MdPricePoint → List MdPricePoint
  | [] => [pt]
  | q :: rest => if pt.timestamp ≤ q.timestamp then pt :: q :: rest else q :: insertByTs pt rest

/-- Stable sort by ascending timestamp, as the source's
sort((a, b) => a.timestamp - b.timestamp). -/
def sortByTs : List MdPricePoint → List MdPricePoint
  | [] => []
  | pt :: rest => insertByTs pt (sortByTs rest)

/-- get24hChange for a tracked instrument: none with fewer than 2 history
points; otherwise the earliest point of the last 24h window (none when the
window is empty), compared against the current price, rounded to 2 decimals. -/
def get24hChange (d : MarketData) (now : ℚ) : Option JsVal :=
  if d.priceHistory.length < 2 then none
  else
    let oneDayAgo := now - 24 * 60 * 60 * 1000
    match (sortByTs (d.priceHistory.filter (fun pt => oneDayAgo ≤ pt.timestamp))).head? with
    | none => none
    | some oldestPoint =>
      some (jsRound2 (JsVal.mul (JsVal.div (JsVal.sub d.currentPrice oldestPoint.price) oldestPoint.price) (JsVal.fin 100)))

end MarketDataService

/-! ## Helper lemmas -/

theorem posGet_posSet_self (l : List (String × Position)) (k : String) (p : Position) :
    posGet (posSet l k p) k = some p := by
  induction l with
  | nil => simp [posGet, posSet]
  | cons e rest ih =>
    obtain ⟨k', p'⟩ := e
    by_cases h : k' = k
    · simp [posGet, posSet, h]
    · simp [posGet, posSet, h, ih]

theorem posGet_posDelete_self (l : List (String × Position)) (k : String) :
    posGet (posDelete l k) k = none := by
  induction l with
  | nil => simp [posGet, posDelete]
  | cons e rest ih =>
    obtain ⟨k', p'⟩ := e
    by_cases h : k' = k
    · simpa [posDelete, h] using ih
    · simpa [posDelete, posGet, h] using ih

theorem mem_keys_posSet (l : List (String × Position)) (k : String) (p : Position)
    (a : String) (h : a ∈ (posSet l k p).map Prod.fst) :
    a ∈ l.map Prod.fst ∨ a = k := by
  induction l with
  | nil => simpa [posSet] using h
  | cons e rest ih =>
    obtain ⟨k', p'⟩ := e
    by_cases hk : k' = k
    · simp only [posSet, if_pos hk, List.map_cons, List.mem_cons] at h
      rcases h with h | h
      · exact Or.inr h
      · exact Or.inl (by simp [h])
    · simp only [posSet, if_neg hk, List.map_cons, List.mem_cons] at h
      rcases h with h | h
      · exact Or.inl (by simp [h])
      · rcases ih h with h' | h'
        · exact Or.inl (by simp [h'])
        · exact Or.inr h'

theorem nodup_keys_posSet (l : List (String × Position)) (k : String) (p : Position)
    (h : (l.map Prod.fst).Nodup) : ((posSet l k p).map Prod.fst).Nodup := by
  induction l with
  | nil => simp [posSet]
  | cons e rest ih =>
    obtain ⟨k', p'⟩ := e
    simp only [List.map_cons, List.nodup_cons] at h
    by_cases hk : k' = k
    · simp only [posSet, if_pos hk, List.map_cons, List.nodup_cons]
      exact ⟨by simpa [hk] using h.1, h.2⟩
    · simp only [posSet, if_neg hk, List.map_cons, List.nodup_cons]
      refine ⟨fun hmem => ?_, ih h.2⟩
      rcases mem_keys_posSet rest k p k' hmem with h' | h'
      · exact h.1 h'
      · exact hk h'

theorem nodup_keys_posDelete (l : List (String × Position)) (k : String)
    (h : (l.map Prod.fst).Nodup) : ((posDelete l k).map Prod.fst).Nodup := by
  refine List.Nodup.sublist (List.Sublist.map Prod.fst ?_) h
  exact List.filter_sublist l

theorem mem_insertByTs (pt a : MdPricePoint) (l : List MdPricePoint) :
    a ∈ MarketDataService.insertByTs pt l ↔ a = pt ∨ a ∈ l := by
  induction l with
  | nil => simp [MarketDataService.insertByTs]
  | cons q rest ih =>
    by_cases h : pt.timestamp ≤ q.timestamp
    · simp [MarketDataService.insertByTs, h]
      try tauto
    · simp [MarketDataService.insertByTs, h, ih]
      try tauto

theorem mem_sortByTs (a : MdPricePoint) (l : List MdPricePoint) :
    a ∈ MarketDataService.sortByTs l ↔ a ∈ l := by
  induction l with
  | nil => simp [MarketDataService.sortByTs]
  | cons q rest ih =>
    simp [MarketDataService.sortByTs, mem_insertByTs, ih]
    try tauto

theorem sortByTs_eq_nil_iff (l : List MdPricePoint) :
    MarketDataService.sortByTs l = [] ↔ l = [] := by
  induction l with
  | nil => simp [MarketDataService.sortByTs]
  | cons q rest ih =>
    simp only [MarketDataService.sortByTs]
    constructor
    · intro h
      exfalso
      have : q ∈ MarketDataService.insertByTs q (MarketDataService.sortByTs rest) := by
        rw [mem_insertByTs]
        exact Or.inl rfl
      rw [h] at this
      exact List.not_mem_nil q this
    · intro h
      exact absurd h (List.cons_ne_nil q rest)

theorem pairwise_insertByTs (pt : MdPricePoint) (l : List MdPricePoint)
    (h : l.Pairwise (fun a b => a.timestamp ≤ b.timestamp)) :
    (MarketDataService.insertByTs pt l).Pairwise (fun a b => a.timestamp ≤ b.timestamp) := by
  induction l with
  | nil => simp [MarketDataService.insertByTs]
  | cons q rest ih =>
    rw [List.pairwise_cons] at h
    by_cases hle : pt.timestamp ≤ q.timestamp
    · simp only [MarketDataService.insertByTs, if_pos hle]
      rw [List.pairwise_cons]
      refine ⟨fun b hb => ?_, List.pairwise_cons.mpr h⟩
      rcases List.mem_cons.mp hb with hb | hb
      · exact hb ▸ hle
      · exact le_trans hle (h.1 b hb)
    · simp only [MarketDataService.insertByTs, if_neg hle]
      rw [List.pairwise_cons]
      refine ⟨fun b hb => ?_, ih h.2⟩
      rcases (mem_insertByTs pt b rest).mp hb with hb | hb
      · exact hb ▸ le_of_lt (lt_of_not_le hle)
      · exact h.1 b hb

theorem pairwise_sortByTs (l : List MdPricePoint) :
    (MarketDataService.sortByTs l).Pairwise (fun a b => a.timestamp ≤ b.timestamp) := by
  induction l with
  | nil => simp [MarketDataService.sortByTs]
  | cons q rest ih => exact pairwise_insertByTs q _ ih

theorem head_sortByTs_min (l : List MdPricePoint) (a : MdPricePoint)
    (h : (MarketDataService.sortByTs l).head? = some a) :
    a ∈ l ∧ ∀ b ∈ l, a.timestamp ≤ b.timestamp := by
  obtain ⟨tail, htail⟩ : ∃ tail, MarketDataService.sortByTs l = a :: tail := by
    cases hs : MarketDataService.sortByTs l with
    | nil => rw [hs] at h; exact Option.noConfusion h
    | cons x xs =>
      rw [hs] at h
      simp only [List.head?_cons, Option.some.injEq] at h
      exact ⟨xs, by rw [h]⟩
  constructor
  · exact (mem_sortByTs a l).mp (htail ▸ List.mem_cons_self a tail)
  · intro b hb
    have hbs : b ∈ a :: tail := htail ▸ (mem_sortByTs b l).mpr hb
    rcases List.mem_cons.mp hbs with hb' | hb'
    · exact hb' ▸ le_refl _
    · have hp := pairwise_sortByTs l
      rw [htail, List.pairwise_cons] at hp
      exact hp.1 b hb'

theorem checkExitConditions_exit_type (position : Position) (trend : TrendAnalysis)
    (currentPrice : ℚ) (sig : TradeSignal)
    (h : TradingStrategy.checkExitConditions position trend currentPrice = some sig) :
    sig.type = SignalType.EXIT := by
  simp only [TradingStrategy.checkExitConditions] at h
  split at h
  · exact Option.noConfusion h
  split at h
  · cases h; rfl
  split at h
  · cases h; rfl
  split at h
  · cases h; rfl
  exact Option.noConfusion h

/-! ## Concrete fixtures for witnesses and counterexamples -/

/-- Fresh stats ledger, as initialised in trading-strategy.ts. -/
def statsZero : TradeStats :=
  { totalTrades := 0, winningTrades := 0, totalProfit := 0, currentCapital := 20, maxDrawdown := 0 }

/-- A concrete open position: entered at price 100 with 6 units of capital. -/
def posTok : Position :=
  { tokenMint := "TOK", entryPrice := 100, amount := 6 / 100, stopLoss := 99,
    takeProfit := 102, timestamp := 0, initialCapital := 6 }

/-- A strategy state with the position posTok open and 14 units of free capital. -/
def stateOpen : StrategyState :=
  { positions := [("TOK", posTok)], initialCapital := 20, currentCapital := 14,
    stats := statsZero, consecutiveLosses := 0 }

/-- A flat strategy state whose free capital has fallen to 0. -/
def stateNoCapital : StrategyState :=
  { positions := [], initialCapital := 20, currentCapital := 0,
    stats := statsZero, consecutiveLosses := 0 }

/-- A flat strategy state that has reached the consecutive-loss limit. -/
def stateThrottled : StrategyState :=
  { positions := [], initialCapital := 20, currentCapital := 14,
    stats := statsZero, consecutiveLosses := 5 }

/-- A concrete ENTRY signal at price 100. -/
def sigEntryTok : TradeSignal :=
  { type := SignalType.ENTRY, tokenMint := "TOK", price := 100, confidence := JsVal.fin 100 }

/-- A concrete EXIT signal at price 110. -/
def sigExitTok : TradeSignal :=
  { type := SignalType.EXIT, tokenMint := "TOK", price := 110, confidence := JsVal.fin 100 }

/-- A concrete bullish trend analysis with finite, in-range fields. -/
def trendBull : TrendAnalysis :=
  { direction := TrendDirection.BULLISH, strength := JsVal.fin 50, duration := 1,
    priceChange := JsVal.fin 10, volumeChange := JsVal.fin 10, sma20 := 100, sma50 := 100,
    isReversal := false, confidence := JsVal.fin 80 }

/-- A two-point history with positive prices and volumes both 0: valid per the
data model, but its volume change is 0/0. -/
def trendBugHistory : List PricePoint := [⟨0, 1, 0⟩, ⟨1, 2, 0⟩]

/-- A small two-point history with nonzero volumes. -/
def histSmall : List PricePoint := [⟨0, 1, 1000⟩, ⟨1, 2, 1100⟩]

/-! ## Claim C1 -/

/-- C1: for an open position, executeExit reports success, credits the
previous capital with capitalCommitted plus profit where
profit = (exitPrice - entryPrice) * quantity, increments totalTrades,
increments winningTrades and resets consecutiveLosses on a profit and
otherwise increments consecutiveLosses, lowers maxDrawdown to the minimum of
its previous value and the new capital drawdown percentage, and removes the
position. -/
theorem claim1_executeExit_settlement (s : StrategyState) (signal : TradeSignal)
    (position : Position)
    (hopen : posGet s.positions signal.tokenMint = some position) :
    (TradingStrategy.executeExit s signal).1 = true ∧
    (TradingStrategy.executeExit s signal).2.currentCapital =
      s.currentCapital + position.initialCapital +
        (signal.price - position.entryPrice) * position.amount ∧
    (TradingStrategy.executeExit s signal).2.stats.totalTrades = s.stats.totalTrades + 1 ∧
    (0 < (signal.price - position.entryPrice) * position.amount →
      (TradingStrategy.executeExit s signal).2.stats.winningTrades = s.stats.winningTrades + 1 ∧
      (TradingStrategy.executeExit s signal).2.consecutiveLosses = 0) ∧
    (¬0 < (signal.price - position.entryPrice) * position.amount →
      (TradingStrategy.executeExit s signal).2.stats.winningTrades = s.stats.winningTrades ∧
      (TradingStrategy.executeExit s signal).2.consecutiveLosses = s.consecutiveLosses + 1) ∧
    (TradingStrategy.executeExit s signal).2.stats.maxDrawdown =
      Min.min s.stats.maxDrawdown
        (((TradingStrategy.executeExit s signal).2.currentCapital - s.initialCapital) /
          s.initialCapital * 100) ∧
    posGet (TradingStrategy.executeExit s signal).2.positions signal.tokenMint = none := by
  refine ⟨?_, ?_, ?_, ?_, ?_, ?_, ?_⟩
  · simp [TradingStrategy.executeExit, hopen]
  · simp [TradingStrategy.executeExit, hopen]
  · simp [TradingStrategy.executeExit, hopen]
  · intro h
    simp [TradingStrategy.executeExit, hopen, h]
  · intro h
    simp [TradingStrategy.executeExit, hopen, h]
  · simp [TradingStrategy.executeExit, hopen]
  · simp only [TradingStrategy.executeExit, hopen]
    exact posGet_posDelete_self _ _

/-- Witness for C1 at a concrete exit: capital 14 + 6 + 0.6 and the position
gone. -/
theorem claim1_witness :
    (TradingStrategy.executeExit stateOpen sigExitTok).2.currentCapital = 103 / 5 ∧
    posGet (TradingStrategy.executeExit stateOpen sigExitTok).2.positions
      sigExitTok.tokenMint = none := by
  have h := claim1_executeExit_settlement stateOpen sigExitTok posTok
    (by simp [stateOpen, sigExitTok, posGet])
  exact ⟨h.2.1.trans (by norm_num [stateOpen, posTok, sigExitTok]), h.2.2.2.2.2.2⟩

/-! ## Claim C4 -/

/-- C4 counterexample: with currentCapital = 0 the position amount is 0
(non-positive), yet executeEntry reports success and stores a position - the
claimed InsufficientCapital failure path does not exist in the code. -/
theorem claim4_counterexample :
    TradingStrategy.positionAmount stateNoCapital = 0 ∧
    (TradingStrategy.executeEntry stateNoCapital sigEntryTok 0).1 = true ∧
    (posGet (TradingStrategy.executeEntry stateNoCapital sigEntryTok 0).2.positions
      "TOK").isSome = true := by
  refine ⟨?_, rfl, ?_⟩
  · norm_num [TradingStrategy.positionAmount, stateNoCapital, TradingStrategy.positionSize]
  · simp [TradingStrategy.executeEntry, stateNoCapital, sigEntryTok, posSet, posGet]

/-- C4 (amended): executeEntry computes the risk-scaled position amount,
stores the position (quantity = amount / entryPrice, capitalCommitted =
amount), debits the capital, and always reports success; there is no
non-positivity check. -/
theorem claim4_executeEntry_always_succeeds (s : StrategyState) (signal : TradeSignal) (now : ℚ) :
    (TradingStrategy.executeEntry s signal now).1 = true ∧
    (TradingStrategy.executeEntry s signal now).2.currentCapital =
      s.currentCapital - TradingStrategy.positionAmount s ∧
    posGet (TradingStrategy.executeEntry s signal now).2.positions signal.tokenMint =
      some {
        tokenMint := signal.tokenMint
        entryPrice := signal.price
        amount := TradingStrategy.positionAmount s / signal.price
        stopLoss := signal.price * (1 - TradingStrategy.stopLossPercent / 100)
        takeProfit := signal.price * (1 + TradingStrategy.takeProfitPercent / 100)
        timestamp := now
        initialCapital := TradingStrategy.positionAmount s } ∧
    TradingStrategy.positionAmount s =
      s.currentCapital * TradingStrategy.positionSize *
        (1 - Min.min ((s.consecutiveLosses : ℚ) * (1 / 10)) (1 / 2)) := by
  refine ⟨rfl, rfl, ?_, rfl⟩
  simp only [TradingStrategy.executeEntry]
  exact posGet_posSet_self _ _ _

/-! ## Claim C7 -/

/-- C7: on a data-model-valid history (positive prices, non-negative volumes,
length at least 2) whose first and last volumes are both 0, analyzeTrend
divides 0 by 0 and returns strength = NaN and confidence = NaN, which are not
within [0, 100] - contradicting the spec and the source's own field comments. -/
theorem claim7_strength_confidence_nan :
    (∀ pt ∈ trendBugHistory, 0 < pt.price ∧ 0 ≤ pt.volume24h) ∧
    2 ≤ trendBugHistory.length ∧
    (TrendAnalyzer.analyzeTrend trendBugHistory).map
      (fun a => (a.strength, a.confidence)) = some (JsVal.nan, JsVal.nan) ∧
    ¬JsVal.nan.within 0 100 := by
  refine ⟨by decide, by decide, ?_, by decide⟩
  norm_num [TrendAnalyzer.analyzeTrend, trendBugHistory, TrendAnalyzer.calculateSMA,
    TrendAnalyzer.determineTrendDirection, TrendAnalyzer.detectReversal,
    TrendAnalyzer.calculateConfidence, TrendAnalyzer.minTrendStrength,
    TrendAnalyzer.reversalThreshold, TrendAnalyzer.priceWeight, TrendAnalyzer.volumeWeight,
    JsVal.div, JsVal.mul, JsVal.add, JsVal.min, JsVal.abs, JsVal.lt, round2, jsRound2]

/-! ## Claim C8 -/

/-- C8: when the window exceeds the retained history, calculateSMA degrades
to the arithmetic mean of the whole history. -/
theorem claim8_sma_graceful_shrink (history : List PricePoint) (n : ℕ)
    (h2 : 2 ≤ history.length) (hn : history.length < n) :
    TrendAnalyzer.calculateSMA history n =
      (history.map (fun p => p.price)).sum / (history.length : ℚ) := by
  unfold TrendAnalyzer.calculateSMA
  rw [if_pos hn]

/-- Witness for C8: the 20-period SMA of a 2-point history is the plain mean. -/
theorem claim8_witness : TrendAnalyzer.calculateSMA histSmall 20 = 3 / 2 := by
  have h := claim8_sma_graceful_shrink histSmall 20 (by decide) (by decide)
  rw [h]
  norm_num [histSmall]

/-! ## Claim C10 -/

/-- C10: executeEntry with an already-open position for the same instrument
does not fail: it overwrites the stored position with one computed from the
current capital and debits the capital by the new position amount only - the
capital committed to the replaced position is not credited back. -/
theorem claim10_executeEntry_overwrites (s : StrategyState) (signal : TradeSignal)
    (now : ℚ) (oldPos : Position)
    (hopen : posGet s.positions signal.tokenMint = some oldPos) :
    (TradingStrategy.executeEntry s signal now).1 = true ∧
    posGet (TradingStrategy.executeEntry s signal now).2.positions signal.tokenMint =
      some {
        tokenMint := signal.tokenMint
        entryPrice := signal.price
        amount := TradingStrategy.positionAmount s / signal.price
        stopLoss := signal.price * (1 - TradingStrategy.stopLossPercent / 100)
        takeProfit := signal.price * (1 + TradingStrategy.takeProfitPercent / 100)
        timestamp := now
        initialCapital := TradingStrategy.positionAmount s } ∧
    (TradingStrategy.executeEntry s signal now).2.currentCapital =
      s.currentCapital - TradingStrategy.positionAmount s := by
  refine ⟨rfl, ?_, rfl⟩
  simp only [TradingStrategy.executeEntry]
  exact posGet_posSet_self _ _ _

/-- Witness for C10: re-entering the already-open TOK position succeeds and
debits the new amount from the remaining 14 (leaving 49/5), without crediting
the 6 committed to the old position. -/
theorem claim10_witness :
    (TradingStrategy.executeEntry stateOpen sigEntryTok 0).1 = true ∧
    (TradingStrategy.executeEntry stateOpen sigEntryTok 0).2.currentCapital = 49 / 5 := by
  have h := claim10_executeEntry_overwrites stateOpen sigEntryTok 0 posTok
    (by simp [stateOpen, sigEntryTok, posGet])
  exact ⟨h.1, h.2.2.trans (by norm_num [stateOpen, TradingStrategy.positionAmount,
    TradingStrategy.positionSize])⟩

/-! ## Claim C2 -/

/-- C2: while a position is open for an instrument, analyzeTradeOpportunity
never returns an ENTRY signal for it - it delegates to the exit-condition
check, which only ever emits EXIT or nothing.  Moreover both executeEntry and
executeExit preserve key-uniqueness of the positions map, so at most one
position is open per instrument throughout any sequence of calls. -/
theorem claim2_no_entry_while_open (s : StrategyState) (tok : String)
    (trend : Option TrendAnalysis) (v p : ℚ) (sig : TradeSignal) (now : ℚ)
    (hopen : (posGet s.positions tok).isSome = true)
    (hnodup : (s.positions.map Prod.fst).Nodup) :
    (∀ out, TradingStrategy.analyzeTradeOpportunity s tok trend v p = some out →
      out.type = SignalType.EXIT) ∧
    ((TradingStrategy.executeEntry s sig now).2.positions.map Prod.fst).Nodup ∧
    ((TradingStrategy.executeExit s sig).2.positions.map Prod.fst).Nodup := by
  refine ⟨?_, ?_, ?_⟩
  · intro out hout
    unfold TradingStrategy.analyzeTradeOpportunity at hout
    cases trend with
    | none => exact Option.noConfusion hout
    | some t =>
      obtain ⟨pos, hpos⟩ := Option.isSome_iff_exists.mp hopen
      rw [hpos] at hout
      exact checkExitConditions_exit_type pos t p out hout
  · simp only [TradingStrategy.executeEntry]
    exact nodup_keys_posSet _ _ _ hnodup
  · unfold TradingStrategy.executeExit
    cases hp : posGet s.positions sig.tokenMint with
    | none => exact hnodup
    | some pos =>
      simp only
      exact nodup_keys_posDelete _ _ hnodup

/-- Witness for C2 at a state with the TOK position open. -/
theorem claim2_witness :
    ((TradingStrategy.executeEntry stateOpen sigEntryTok 0).2.positions.map Prod.fst).Nodup :=
  (claim2_no_entry_while_open stateOpen "TOK" (some trendBull) 60000 105 sigEntryTok 0
    (by simp [stateOpen, posGet]) (by simp [stateOpen])).2.1

/-! ## Claim C3 -/

/-- C3: once consecutiveLosses has reached consecutiveLossLimit,
analyzeTradeOpportunity returns no signal at all for a flat instrument,
whatever the trend; executeEntry leaves the counter untouched; and an exit
resets the counter to 0 exactly on a positive profit, otherwise increments
it (so the throttle persists until a winning exit). -/
theorem claim3_consecutive_loss_throttle (s : StrategyState) (tok : String)
    (trend : Option TrendAnalysis) (v p : ℚ) (sig : TradeSignal) (now : ℚ)
    (hlim : TradingStrategy.consecutiveLossLimit ≤ s.consecutiveLosses)
    (hflat : posGet s.positions tok = none) :
    TradingStrategy.analyzeTradeOpportunity s tok trend v p = none ∧
    (TradingStrategy.executeEntry s sig now).2.consecutiveLosses = s.consecutiveLosses ∧
    (∀ position, posGet s.positions sig.tokenMint = some position →
      ((sig.price - position.entryPrice) * position.amount ≤ 0 →
        (TradingStrategy.executeExit s sig).2.consecutiveLosses = s.consecutiveLosses + 1) ∧
      (0 < (sig.price - position.entryPrice) * position.amount →
        (TradingStrategy.executeExit s sig).2.consecutiveLosses = 0)) := by
  refine ⟨?_, rfl, ?_⟩
  · unfold TradingStrategy.analyzeTradeOpportunity
    cases trend with
    | none => rfl
    | some t =>
      rw [hflat]
      simp only [if_pos hlim]
  · intro position hpos
    refine ⟨fun hle => ?_, fun hlt => ?_⟩
    · simp [TradingStrategy.executeExit, hpos, not_lt.mpr hle]
    · simp [TradingStrategy.executeExit, hpos, hlt]

/-- Witness for C3 at a throttled flat state: no signal despite a clean
bullish trend. -/
theorem claim3_witness :
    TradingStrategy.analyzeTradeOpportunity stateThrottled "TOK" (some trendBull) 60000 105 = none :=
  (claim3_consecutive_loss_throttle stateThrottled "TOK" (some trendBull) 60000 105
    sigExitTok 0 (by decide) (by simp [stateThrottled, posGet])).1

/-! ## Claim C5 -/

/-- C5: for an open position and a fetched nonzero price, the exit check
emits a signal exactly when the stop-loss bound, the dynamic take-profit
bound, or the in-profit reversal rule fires, every emitted signal is an EXIT,
and a position that is not in profit is never closed by the reversal/BEARISH
rule alone. -/
theorem claim5_exit_conditions_iff (position : Position) (trend : TrendAnalysis)
    (currentPrice : ℚ) (hcp : currentPrice ≠ 0) :
    ((TradingStrategy.checkExitConditions position trend currentPrice).isSome = true ↔
      (TradingStrategy.exitPriceChange position currentPrice ≤ -TradingStrategy.stopLossPercent ∨
        (TradingStrategy.dynamicTakeProfit trend.strength).le
          (JsVal.fin (TradingStrategy.exitPriceChange position currentPrice)) = true ∨
        ((trend.isReversal = true ∨ trend.direction = TrendDirection.BEARISH) ∧
          0 < TradingStrategy.exitPriceChange position currentPrice))) ∧
    (∀ sig, TradingStrategy.checkExitConditions position trend currentPrice = some sig →
      sig.type = SignalType.EXIT) ∧
    (TradingStrategy.exitPriceChange position currentPrice ≤ 0 →
      ¬TradingStrategy.exitPriceChange position currentPrice ≤ -TradingStrategy.stopLossPercent →
      (TradingStrategy.dynamicTakeProfit trend.strength).le
        (JsVal.fin (TradingStrategy.exitPriceChange position currentPrice)) = false →
      TradingStrategy.checkExitConditions position trend currentPrice = none) := by
  refine ⟨?_, fun sig h => checkExitConditions_exit_type position trend currentPrice sig h, ?_⟩
  · simp only [TradingStrategy.checkExitConditions, if_neg hcp]
    split_ifs with h1 h2 h3
    · simp only [Option.isSome_some, true_iff]
      exact Or.inl h1
    · simp only [Option.isSome_some, true_iff]
      exact Or.inr (Or.inl h2)
    · simp only [Option.isSome_some, true_iff]
      exact Or.inr (Or.inr h3)
    · simp only [Option.isSome_none, Bool.false_eq_true, false_iff]
      intro hor
      rcases hor with h | h | h
      · exact h1 h
      · exact h2 h
      · exact h3 h
  · intro hle hnsl htp
    simp only [TradingStrategy.checkExitConditions, if_neg hcp]
    rw [if_neg hnsl, if_neg (by simp [htp]), if_neg ?_]
    intro hc
    exact absurd hc.2 (not_lt.mpr hle)

/-- Witness for C5: a 2% loss on the open position triggers the stop-loss
arm of the disjunction. -/
theorem claim5_witness :
    (TradingStrategy.checkExitConditions posTok trendBull 98).isSome = true := by
  have h := claim5_exit_conditions_iff posTok trendBull 98 (by norm_num)
  refine h.1.mpr (Or.inl ?_)
  norm_num [TradingStrategy.exitPriceChange, TradingStrategy.stopLossPercent, posTok]

/-! ## Claim C6 -/

/-- A tracked instrument with one stored sample and previous volume 50. -/
def mdBase : MarketData :=
  { symbol := "T", currentPrice := JsVal.fin 10, currentVolume24h := JsVal.fin 50,
    priceHistory := [⟨0, JsVal.fin 10, JsVal.fin 50⟩], lastUpdated := 0,
    updateCount := 1, errors := 0, volumeChange24h := JsVal.fin 0 }

/-- C6 counterexample: a sample with negative price -5 is accepted by
updatePrice - the error counter stays 0, the history grows and the negative
price is stored - because the code only rejects NaN, not negative or infinite
values. -/
theorem claim6_counterexample :
    (MarketDataService.updatePrice mdBase (some (JsVal.fin (-5), JsVal.fin 100))
      60000 1440 60000).errors = 0 ∧
    (MarketDataService.updatePrice mdBase (some (JsVal.fin (-5), JsVal.fin 100))
      60000 1440 60000).priceHistory.length = 2 ∧
    (MarketDataService.updatePrice mdBase (some (JsVal.fin (-5), JsVal.fin 100))
      60000 1440 60000).currentPrice = JsVal.fin (-5) := by
  refine ⟨?_, ?_, ?_⟩ <;>
    norm_num [MarketDataService.updatePrice, mdBase, JsVal.isNaN]

/-- C6 (amended): updatePrice rejects a sample - leaving the state unchanged
apart from the error counter - exactly when the fetch fails or a fetched
value is NaN; negative and infinite values pass the check.  A valid, timely
sample updates price and volume, stores the volume change relative to the
previous currentVolume24h, appends the sample (keeping it the most recent
point), trims the history to historyLength points and resets the error
counter to 0. -/
theorem claim6_updatePrice_validation (d : MarketData) (p v : JsVal) (now : ℚ)
    (hl : ℕ) (ui : ℚ) (hp : p.isNaN = false) (hv : v.isNaN = false)
    (ht : ui * (9 / 10) ≤ now - d.lastUpdated) :
    MarketDataService.updatePrice d none now hl ui = { d with errors := d.errors + 1 } ∧
    (∀ p' v' : JsVal, p'.isNaN = true ∨ v'.isNaN = true →
      MarketDataService.updatePrice d (some (p', v')) now hl ui =
        { d with errors := d.errors + 1 }) ∧
    (MarketDataService.updatePrice d (some (p, v)) now hl ui).errors = 0 ∧
    (MarketDataService.updatePrice d (some (p, v)) now hl ui).currentPrice = p ∧
    (MarketDataService.updatePrice d (some (p, v)) now hl ui).currentVolume24h = v ∧
    (MarketDataService.updatePrice d (some (p, v)) now hl ui).volumeChange24h =
      jsRound2 (JsVal.mul (JsVal.div (JsVal.sub v d.currentVolume24h) d.currentVolume24h)
        (JsVal.fin 100)) ∧
    (0 < hl →
      (MarketDataService.updatePrice d (some (p, v)) now hl ui).priceHistory.getLast? =
        some { timestamp := now, price := p, volume24h := v }) ∧
    (d.priceHistory.length ≤ hl →
      (MarketDataService.updatePrice d (some (p, v)) now hl ui).priceHistory.length ≤ hl) := by
  have hcond : ¬(p.isNaN = true ∨ v.isNaN = true) := by simp [hp, hv]
  have htime : ¬(now - d.lastUpdated < ui * (9 / 10)) := not_lt.mpr ht
  refine ⟨rfl, ?_, ?_, ?_, ?_, ?_, ?_, ?_⟩
  · intro p' v' h
    simp only [MarketDataService.updatePrice]
    rw [if_pos h]
  · simp only [MarketDataService.updatePrice]
    rw [if_neg hcond, if_neg htime]
  · simp only [MarketDataService.updatePrice]
    rw [if_neg hcond, if_neg htime]
  · simp only [MarketDataService.updatePrice]
    rw [if_neg hcond, if_neg htime]
  · simp only [MarketDataService.updatePrice]
    rw [if_neg hcond, if_neg htime]
  · intro hhl
    simp only [MarketDataService.updatePrice]
    rw [if_neg hcond, if_neg htime]
    simp only
    split_ifs with htrim
    · rw [List.getLast?_drop, if_neg (by simp; omega)]
      simp
    · simp
  · intro hlen
    simp only [MarketDataService.updatePrice]
    rw [if_neg hcond, if_neg htime]
    simp only
    split_ifs with htrim
    · simp only [List.length_drop, List.length_append, List.length_cons, List.length_nil]
      omega
    · simp only [List.length_append, List.length_cons, List.length_nil] at htrim ⊢
      omega

/-- Witness for C6: a valid timely sample resets the error counter. -/
theorem claim6_witness :
    (MarketDataService.updatePrice mdBase (some (JsVal.fin 2, JsVal.fin 3))
      60000 10 60000).errors = 0 := by
  have h := claim6_updatePrice_validation mdBase (JsVal.fin 2) (JsVal.fin 3) 60000 10 60000
    rfl rfl (by norm_num [mdBase])
  exact h.2.2.1

/-! ## Claim C9 -/

/-- A tracked instrument holding a single sample, taken within the last 24h. -/
def mdOnePoint : MarketData :=
  { symbol := "T", currentPrice := JsVal.fin 10, currentVolume24h := JsVal.fin 5,
    priceHistory := [⟨1000, JsVal.fin 10, JsVal.fin 5⟩], lastUpdated := 1000,
    updateCount := 1, errors := 0, volumeChange24h := JsVal.fin 0 }

/-- A tracked instrument holding two samples, both within the last 24h. -/
def mdTwoPoint : MarketData :=
  { symbol := "T", currentPrice := JsVal.fin 20, currentVolume24h := JsVal.fin 5,
    priceHistory := [⟨1000, JsVal.fin 10, JsVal.fin 5⟩, ⟨2000, JsVal.fin 20, JsVal.fin 5⟩],
    lastUpdated := 2000, updateCount := 2, errors := 0, volumeChange24h := JsVal.fin 0 }

/-- C9 counterexample: for a tracked instrument with exactly one sample, and
that sample inside the 24h window, get24hChange still returns null because of
its initial history-length < 2 guard - so null is not returned exactly when
no sample falls within the window. -/
theorem claim9_counterexample :
    MarketDataService.get24hChange mdOnePoint 2000 = none ∧
    mdOnePoint.priceHistory.filter
      (fun pt => (2000 : ℚ) - 24 * 60 * 60 * 1000 ≤ pt.timestamp) ≠ [] := by
  constructor
  · norm_num [MarketDataService.get24hChange, mdOnePoint]
  · simp only [mdOnePoint, List.filter, decide_eq_true_eq]
    norm_num

/-- C9 (amended): for a history of at least 2 samples, get24hChange returns
null exactly when no sample falls within the last 24h window, and otherwise
returns the percent change of the current price against an earliest in-window
sample, rounded to 2 decimals. -/
theorem claim9_get24hChange_window (d : MarketData) (now : ℚ)
    (h2 : 2 ≤ d.priceHistory.length) :
    (MarketDataService.get24hChange d now = none ↔
      d.priceHistory.filter (fun pt => now - 24 * 60 * 60 * 1000 ≤ pt.timestamp) = []) ∧
    (d.priceHistory.filter (fun pt => now - 24 * 60 * 60 * 1000 ≤ pt.timestamp) ≠ [] →
      ∃ pt ∈ d.priceHistory.filter (fun pt => now - 24 * 60 * 60 * 1000 ≤ pt.timestamp),
        (∀ q ∈ d.priceHistory.filter (fun pt => now - 24 * 60 * 60 * 1000 ≤ pt.timestamp),
          pt.timestamp ≤ q.timestamp) ∧
        MarketDataService.get24hChange d now =
          some (jsRound2 (JsVal.mul (JsVal.div (JsVal.sub d.currentPrice pt.price) pt.price)
            (JsVal.fin 100)))) := by
  have hnot : ¬d.priceHistory.length < 2 := not_lt.mpr h2
  cases hh : (MarketDataService.sortByTs (d.priceHistory.filter
      (fun pt => now - 24 * 60 * 60 * 1000 ≤ pt.timestamp))).head? with
  | none =>
    rw [List.head?_eq_none_iff, sortByTs_eq_nil_iff] at hh
    constructor
    · simp only [MarketDataService.get24hChange, if_neg hnot]
      rw [hh]
      simp [MarketDataService.sortByTs]
    · intro hne
      exact absurd hh hne
  | some a =>
    have hmin := head_sortByTs_min _ a hh
    have hne : d.priceHistory.filter
        (fun pt => now - 24 * 60 * 60 * 1000 ≤ pt.timestamp) ≠ [] := by
      intro h0
      rw [h0] at hh
      simp [MarketDataService.sortByTs] at hh
    constructor
    · constructor
      · intro h0
        simp only [MarketDataService.get24hChange, if_neg hnot, hh] at h0
        exact Option.noConfusion h0
      · intro h0
        exact absurd h0 hne
    · intro _
      refine ⟨a, hmin.1, hmin.2, ?_⟩
      simp only [MarketDataService.get24hChange, if_neg hnot, hh]

/-- Witness for C9 at a two-sample history with both samples in the window. -/
theorem claim9_witness : MarketDataService.get24hChange mdTwoPoint 3000 ≠ none := by
  have h := claim9_get24hChange_window mdTwoPoint 3000 (by norm_num [mdTwoPoint])
  intro h0
  have hemp := h.1.mp h0
  norm_num [mdTwoPoint, List.filter] at hemp
  exact List.cons_ne_nil _ _ hemp

end Eliza
